import Mathlib

/-!
# VideoStreamingService: the relay core

A shallow embedding of `pubsub.go` (Pubsub, Pub, Sub, cloneView) and
`relayservice.go` (RelayService) together with the properties of the relay
core that the specification states about them.

Conventions of the embedding:

* a Go method with a pointer receiver takes the receiver's state and returns
  the updated state next to its Go results;
* `uint32` values are natural numbers, the arithmetic on them is taken
  modulo `2 ^ 32`;
* a Go `error` is an `Option String`, `none` being `nil`;
* byte slices and maps are references into a heap, so that sharing of
  storage between two values is visible.
-/

namespace VideoStreamingService

/-! ## Go runtime values -/

/-- Go's `error`: `none` is `nil`, `some msg` is an error with message `msg`. -/
abbrev GoError := Option String

/-- The modulus of `uint32` arithmetic. -/
def uint32Mod : Nat := 2 ^ 32

/-- Subtraction on `uint32`: wraps around below zero. -/
def subU32 (a b : Nat) : Nat := (a + uint32Mod - b % uint32Mod) % uint32Mod

/-- A Go `[]byte` slice header: the backing array it points into (by
identity), the offset of its first element in that array and its length. -/
structure Slice where
  arr : Nat
  off : Nat
  len : Nat
deriving DecidableEq, Repr

/-- A Go `bytes.Buffer`: the slice `buf` holding the contents and the read
offset `off` into it. -/
structure Buffer where
  buf : Slice
  off : Nat
deriving DecidableEq, Repr

/-- The method `(*bytes.Buffer).Bytes`: the unread portion `b.buf[b.off:]`, a
slice of the same backing array. -/
def Buffer.Bytes (b : Buffer) : Slice :=
  { arr := b.buf.arr, off := b.buf.off + b.off, len := b.buf.len - b.off }

/-- The function `bytes.NewBuffer(buf)`: a new Buffer that uses `buf` itself
as its contents (`&Buffer{buf: buf}`), no bytes are copied. -/
def NewBuffer (buf : Slice) : Buffer :=
  { buf := buf, off := 0 }

/-- The heap of backing arrays of byte slices, by array identity. -/
abbrev Heap := Nat → List Nat

/-- The bytes a slice denotes in a heap. -/
def Slice.bytes (h : Heap) (s : Slice) : List Nat :=
  ((h s.arr).drop s.off).take s.len

/-- The Go assignment `s[i] = v` for `i < len(s)`: a write into the backing
array. -/
def Slice.setByte (h : Heap) (s : Slice) (i v : Nat) : Heap :=
  fun a => if a = s.arr ∧ i < s.len then (h a).set (s.off + i) v else h a

/-! ## Media units (go-flv tags) -/

/-- Modelled from the spec: the frame type of a Video unit (`frameType` in
{Key, Inter}); the type `FrameType` of the go-flv library is not under src/,
pubsub.go only names its constant `FrameTypeKeyFrame`. -/
inductive FrameType where
  | KeyFrame
  | InterFrame
  | Other (code : Nat)
deriving DecidableEq, Repr

/-- Modelled from the spec: the packet type of a Video unit (`packetType` in
{SequenceHeader, NALUnit, ...}); the type `AVCPacketType` of the go-flv
library is not under src/, pubsub.go only names its constant
`AVCPacketTypeSequenceHeader`. -/
inductive AVCPacketType where
  | SequenceHeader
  | NALU
  | Other (code : Nat)
deriving DecidableEq, Repr

/-- Modelled from the spec: the Audio payload, go-flv's `AudioData` (not under
src/): codec header fields and the reader `Data`, which handler.go always
sets to a `*bytes.Buffer` and cloneView casts to one. -/
structure AudioData where
  SoundFormat : Nat
  SoundRate : Nat
  SoundSize : Nat
  SoundType : Nat
  AACPacketType : Nat
  Data : Buffer
deriving DecidableEq, Repr

/-- Modelled from the spec: the Video payload, go-flv's `VideoData` (not under
src/): frame type, packet type, further header fields and the reader `Data`,
a `*bytes.Buffer`. -/
structure VideoData where
  FrameType : FrameType
  CodecID : Nat
  AVCPacketType : AVCPacketType
  CompositionTime : Int
  Data : Buffer
deriving DecidableEq, Repr

/-- Modelled from the spec: the Metadata payload, go-flv's `ScriptData` (not
under src/): its single field `Objects` is a Go map, held here by the
identity of the map it refers to. -/
structure ScriptData where
  Objects : Nat
deriving DecidableEq, Repr

/-- The dynamic type of `FlvTag.Data`: the three cases of the type switches
in Publish and cloneView (any other type panics there). -/
inductive TagData where
  | audio (d : AudioData)
  | video (d : VideoData)
  | script (d : ScriptData)
deriving DecidableEq, Repr

/-- Modelled from the spec: a MediaUnit, go-flv's `FlvTag` (not under src/):
tag type, `uint32` timestamp, stream id and the kind-specific data. -/
structure FlvTag where
  TagType : Nat
  Timestamp : Nat
  StreamID : Nat
  Data : TagData
deriving DecidableEq, Repr

/-- The payload buffer of an Audio or Video tag. -/
def FlvTag.buffer? (flv : FlvTag) : Option Buffer :=
  match flv.Data with
  | .audio d => some d.Data
  | .video d => some d.Data
  | .script _ => none

/-- The payload bytes of a tag in a heap (the unread bytes of its buffer). -/
def FlvTag.payload (h : Heap) (flv : FlvTag) : List Nat :=
  match flv.buffer? with
  | some b => b.Bytes.bytes h
  | none => []

/-- The function cloneView of pubsub.go: copies the tag struct and the data
struct; for Audio and Video the copy's `Data` becomes
`bytes.NewBuffer(old.Bytes())`, for ScriptData the struct copy is all. -/
def cloneView (flv : FlvTag) : FlvTag :=
  match flv.Data with
  | .audio d => { flv with Data := .audio { d with Data := NewBuffer d.Data.Bytes } }
  | .video d => { flv with Data := .video { d with Data := NewBuffer d.Data.Bytes } }
  | .script d => { flv with Data := .script d }

/-! ## Sub -/

/-- The struct Sub of pubsub.go. `eventCallback` is the function OnPlay binds
right after `Pubsub.Sub()`; it returns the error of the outbound write. -/
structure Sub where
  initialized : Bool
  closed : Bool
  lastTimestamp : Nat
  eventCallback : FlvTag → GoError

/-- What one call of `Sub.onEvent` leaves behind: the subscriber state, the
tag it was passed (onEvent rewrites its timestamp in place), the tag the
callback was invoked with (`none` when it was not invoked) and the returned
error. -/
structure OnEventResult where
  sub : Sub
  flv : FlvTag
  called : Option FlvTag
  err : GoError

/-- The method `Sub.onEvent` of pubsub.go. -/
def Sub.onEvent (s : Sub) (flv : FlvTag) : OnEventResult :=
  if s.closed then
    { sub := s, flv := flv, called := none, err := none }
  else
    let s1 : Sub :=
      if flv.Timestamp ≠ 0 ∧ s.lastTimestamp = 0 then
        { s with lastTimestamp := flv.Timestamp }
      else s
    let flv1 : FlvTag := { flv with Timestamp := subU32 flv.Timestamp s1.lastTimestamp }
    { sub := s1, flv := flv1, called := some flv1, err := s1.eventCallback flv1 }

/-- The method `Sub.Close` of pubsub.go. -/
def Sub.Close (s : Sub) : Sub × GoError :=
  if s.closed then (s, none)
  else ({ s with closed := true }, none)

/-! ## Pubsub, RelayService -/

/-- The struct Pubsub of pubsub.go. The registry pointer `srv` is passed to
the methods that use it; `pub` records whether the pointer `pub` is set. -/
structure Pubsub where
  name : String
  pub : Bool
  subs : List Sub

/-- The function NewPubsub of pubsub.go. -/
def NewPubsub (name : String) : Pubsub :=
  { name := name, pub := false, subs := [] }

/-- The struct RelayService of relayservice.go: the map `streams`. -/
structure RelayService where
  streams : String → Option Pubsub

/-- The function NewRelayService of relayservice.go. -/
def NewRelayService : RelayService :=
  { streams := fun _ => none }

/-- The method `RelayService.NewPubsub` of relayservice.go. -/
def RelayService.NewPubsub (s : RelayService) (key : String) :
    RelayService × Option Pubsub × GoError :=
  match s.streams key with
  | some _ => (s, none, some ("already published: " ++ key))
  | none =>
    let pubsub := VideoStreamingService.NewPubsub key
    ({ streams := fun k => if k = key then some pubsub else s.streams k }, some pubsub, none)

/-- The method `RelayService.GetPubsub` of relayservice.go. -/
def RelayService.GetPubsub (s : RelayService) (key : String) : Option Pubsub × GoError :=
  match s.streams key with
  | none => (none, some ("not published: " ++ key))
  | some pubsub => (some pubsub, none)

/-- The method `RelayService.RemovePubsub` of relayservice.go. -/
def RelayService.RemovePubsub (s : RelayService) (key : String) : RelayService × GoError :=
  match s.streams key with
  | none => (s, some ("not published: " ++ key))
  | some _ => ({ streams := fun k => if k = key then none else s.streams k }, none)

/-- The method `Pubsub.Deregister` of pubsub.go: closes every subscriber, then
removes the name from the registry `pb.srv`. -/
def Pubsub.Deregister (pb : Pubsub) (srv : RelayService) : Pubsub × RelayService × GoError :=
  let pb1 : Pubsub := { pb with subs := pb.subs.map (fun sub => sub.Close.1) }
  let r := srv.RemovePubsub pb.name
  (pb1, r.1, r.2)

/-- The method `Pubsub.Sub` of pubsub.go followed by the assignment of
`eventCallback` that OnPlay makes on the returned subscriber
(handler.go, `sub := pubsub.Sub(); sub.eventCallback = ...`). -/
def Pubsub.Sub (pb : Pubsub) (eventCallback : FlvTag → GoError) :
    Pubsub × VideoStreamingService.Sub :=
  let sub : VideoStreamingService.Sub :=
    { initialized := false, closed := false, lastTimestamp := 0, eventCallback := eventCallback }
  ({ pb with subs := pb.subs ++ [sub] }, sub)

/-! ## Pub -/

/-- The struct Pub of pubsub.go; `pb` is the state of the Pubsub it points
to. -/
structure Pub where
  pb : Pubsub
  avcSeqHeader : Option FlvTag
  lastKeyFrame : Option FlvTag

/-- The method `Pubsub.Pub` of pubsub.go. -/
def Pubsub.Pub (pb : Pubsub) : VideoStreamingService.Pub :=
  { pb := { pb with pub := true }, avcSeqHeader := none, lastKeyFrame := none }

/-- One executed statement `_ = sub.onEvent(cloneView(x))` of Publish: the
index of `sub` in `pb.subs`, the copy passed to onEvent, the tag the callback
was invoked with (if it was) and the error that Publish discards. -/
structure Delivery where
  sub : Nat
  unit : FlvTag
  called : Option FlvTag
  err : GoError
deriving DecidableEq, Repr

/-- The statement `_ = sub.onEvent(cloneView(flv))` for the subscriber at
index `i`. -/
def deliver (i : Nat) (sub : Sub) (flv : FlvTag) : Sub × List Delivery :=
  let r := sub.onEvent (cloneView flv)
  (r.sub, [{ sub := i, unit := cloneView flv, called := r.called, err := r.err }])

/-- The loop `for _, sub := range p.pb.subs` with body `body`, the first
subscriber having index `i`; returns the subscribers after the loop and the
deliveries made, in order. -/
def forSubs (body : Nat → Sub → Sub × List Delivery) : Nat → List Sub → List Sub × List Delivery
  | _, [] => ([], [])
  | i, sub :: rest =>
    let r := body i sub
    let rs := forSubs body (i + 1) rest
    (r.1 :: rs.1, r.2 ++ rs.2)

/-- The body of the Video loop of Publish for one subscriber, with the caches
as they are after the cache update. -/
def videoBody (avcSeqHeader lastKeyFrame : Option FlvTag) (flv : FlvTag) (i : Nat) (sub : Sub) :
    Sub × List Delivery :=
  if !sub.initialized then
    let r1 : Sub × List Delivery :=
      match avcSeqHeader with
      | some h => deliver i sub h
      | none => (sub, [])
    let r2 : Sub × List Delivery :=
      match lastKeyFrame with
      | some k => deliver i r1.1 k
      | none => (r1.1, [])
    ({ r2.1 with initialized := true }, r1.2 ++ r2.2)
  else
    deliver i sub flv

/-- What one call of `Pub.Publish` leaves behind: the publisher state (with
its Pubsub and subscribers), the deliveries made in order, and the returned
error. -/
structure PublishResult where
  pub : Pub
  log : List Delivery
  err : GoError

/-- The method `Pub.Publish` of pubsub.go. -/
def Pub.Publish (p : Pub) (flv : FlvTag) : PublishResult :=
  match flv.Data with
  | .audio _ | .script _ =>
    let r := forSubs (fun i sub => deliver i sub flv) 0 p.pb.subs
    { pub := { p with pb := { p.pb with subs := r.1 } }, log := r.2, err := none }
  | .video d =>
    let p1 : Pub :=
      if d.AVCPacketType = AVCPacketType.SequenceHeader then { p with avcSeqHeader := some flv }
      else p
    let p2 : Pub :=
      if d.FrameType = FrameType.KeyFrame then { p1 with lastKeyFrame := some flv }
      else p1
    let r := forSubs (videoBody p2.avcSeqHeader p2.lastKeyFrame flv) 0 p2.pb.subs
    { pub := { p2 with pb := { p2.pb with subs := r.1 } }, log := r.2, err := none }

/-- The method `Pub.Close` of pubsub.go. -/
def Pub.Close (p : Pub) (srv : RelayService) : Pub × RelayService × GoError :=
  let r := p.pb.Deregister srv
  ({ p with pb := r.1 }, r.2.1, r.2.2)

/-- The deliveries made to subscriber `i` in a delivery log, in order. -/
def entriesOf (i : Nat) (log : List Delivery) : List Delivery :=
  log.filter (fun d => d.sub = i)

/-- The units passed to the onEvent of subscriber `i` in a delivery log, in
order. -/
def unitsTo (i : Nat) (log : List Delivery) : List FlvTag :=
  (entriesOf i log).map (fun d => d.unit)

/-- The tags the callback of subscriber `i` was invoked with in a delivery
log, in order. -/
def calledOn (i : Nat) (log : List Delivery) : List FlvTag :=
  (entriesOf i log).filterMap (fun d => d.called)

/-! ## Sample values -/

/-- A delivery callback whose write always succeeds. -/
def okCallback : FlvTag → GoError := fun _ => none

/-- A delivery callback whose write always fails. -/
def failCallback : FlvTag → GoError := fun _ => some "write failed"

/-- A Video tag with a three-byte payload in backing array `arr`. -/
def exVideo (ts : Nat) (ft : FrameType) (pt : AVCPacketType) (arr : Nat) : FlvTag :=
  { TagType := 9, Timestamp := ts, StreamID := 0,
    Data := .video { FrameType := ft, CodecID := 7, AVCPacketType := pt, CompositionTime := 0,
                     Data := { buf := { arr := arr, off := 0, len := 3 }, off := 0 } } }

/-- An Audio tag with a three-byte payload in backing array `arr`. -/
def exAudio (ts : Nat) (arr : Nat) : FlvTag :=
  { TagType := 8, Timestamp := ts, StreamID := 0,
    Data := .audio { SoundFormat := 10, SoundRate := 3, SoundSize := 1, SoundType := 1,
                     AACPacketType := 1,
                     Data := { buf := { arr := arr, off := 0, len := 3 }, off := 0 } } }

/-- A Metadata tag whose objects are the map `m`. -/
def exScript (ts : Nat) (m : Nat) : FlvTag :=
  { TagType := 18, Timestamp := ts, StreamID := 0, Data := .script { Objects := m } }

/-- The publisher of a fresh channel. -/
def exPub : Pub := (NewPubsub "live").Pub

/-- A sequence header, published at time 0. -/
def exSH : FlvTag := exVideo 0 FrameType.KeyFrame AVCPacketType.SequenceHeader 1

/-- A key frame, published at time 40. -/
def exKF : FlvTag := exVideo 40 FrameType.KeyFrame AVCPacketType.NALU 2

/-- The channel after the sequence header and the key frame were published. -/
def exPrimed : Pub := ((exPub.Publish exSH).pub.Publish exKF).pub

/-- The channel after a subscriber joined it late. -/
def exJoined : Pub := { exPrimed with pb := (exPrimed.pb.Sub okCallback).1 }

/-- An Inter frame that is not a sequence header, published at time 80. -/
def exInter : FlvTag := exVideo 80 FrameType.InterFrame AVCPacketType.NALU 3

/-- The late subscriber of `exJoined`, as attached. -/
def exSub : Sub := (exPrimed.pb.Sub okCallback).2

/-- The channel `exJoined` after an Audio unit of time 1000 was published: the
late subscriber has its baseline at 1000 and is not yet initialized. -/
def exHeard : Pub := (exJoined.Publish (exAudio 1000 4)).pub

/-- A channel without cached video on which subscriber A joined before an
Audio unit of time 100 and subscriber B before an Audio unit of time 500. -/
def exTwoListeners : Pub :=
  let a : Pub := { exPub with pb := (exPub.pb.Sub okCallback).1 }
  let a1 : Pub := (a.Publish (exAudio 100 4)).pub
  let b : Pub := { a1 with pb := (a1.pb.Sub okCallback).1 }
  (b.Publish (exAudio 500 5)).pub

/-- Successive deliveries of the units `l` to one subscriber. -/
def deliverAll (s : Sub) (l : List FlvTag) : Sub :=
  l.foldl (fun s flv => (s.onEvent flv).sub) s

/-- The first non-zero timestamp among the units `l`, 0 if there is none. -/
def firstNonZero : List FlvTag → Nat
  | [] => 0
  | flv :: rest => if flv.Timestamp ≠ 0 then flv.Timestamp else firstNonZero rest

/-- The subscribers `subs` with the callback of the one at index `i`
replaced by `cb`. -/
def replaceCallback : List Sub → Nat → (FlvTag → GoError) → List Sub
  | [], _, _ => []
  | s :: rest, 0, cb => { s with eventCallback := cb } :: rest
  | s :: rest, i + 1, cb => s :: replaceCallback rest i cb

/-- A channel with two subscribers, the first of which has a failing
callback. -/
def exFaulty : Pub :=
  let a : Pub := { exPub with pb := (exPub.pb.Sub failCallback).1 }
  { a with pb := (a.pb.Sub okCallback).1 }

/-- A closed subscriber with baseline 100 and a failing callback. -/
def exClosed : Sub :=
  { initialized := true, closed := true, lastTimestamp := 100, eventCallback := failCallback }

/-- A write of the byte `v` at position `i` of the payload of a tag: the Go
assignment `b.Bytes()[i] = v` on its buffer `b` (no effect on a tag without
buffer). -/
def writePayload (h : Heap) (flv : FlvTag) (i v : Nat) : Heap :=
  match flv.buffer? with
  | some b => b.Bytes.setByte h i v
  | none => h

/-- A heap in which the backing array 4 holds the bytes 1, 2, 3. -/
def exHeap : Heap := fun a => if a = 4 then [1, 2, 3] else []

/-- The registry after `NewPubsub` was called for each of the names `ks` in
turn, whatever the outcomes. -/
def createAll (s : RelayService) (ks : List String) : RelayService :=
  ks.foldl (fun r k => (r.NewPubsub k).1) s

/-- A registry on which the channel "live" was created. -/
def exRegistry : RelayService := (NewRelayService.NewPubsub "live").1

/-! ## Handler -/

/-- The call `sub.Close()` on the subscriber that is element `i` of
`pb.subs`: the list holds the Sub by pointer, so the element is seen in its
new state (no effect when there is no such element). -/
def Pubsub.closeSub (pb : Pubsub) (i : Nat) : Pubsub × GoError :=
  match pb.subs[i]? with
  | some sub => ({ pb with subs := pb.subs.set i sub.Close.1 }, sub.Close.2)
  | none => (pb, none)

/-- The effect on the registry of a change made through a `*Pubsub` pointer:
the map holds each channel by pointer, so the channel registered under
`pb.name` is seen in its new state `pb`. -/
def RelayService.store (s : RelayService) (pb : Pubsub) : RelayService :=
  { streams := fun k => if k = pb.name then some pb else s.streams k }

/-- The pointer `h.sub` of a Handler: the Sub it refers to is element `index`
of the list `subs` of the channel that was looked up under `name`. -/
structure SubPtr where
  name : String
  index : Nat
deriving DecidableEq, Repr

/-- The struct Handler of handler.go: the registry (the state of what
`relayService` points to), the publisher role `pub` and the subscriber role
`sub`, each `none` for a nil pointer. The connection `conn` enters through
the callback that OnPlay binds. -/
structure Handler where
  relayService : RelayService
  pub : Option Pub
  sub : Option SubPtr

/-- The method `Handler.OnPublish` of handler.go, for the publishing name of
the command. -/
def Handler.OnPublish (h : Handler) (PublishingName : String) : Handler × GoError :=
  if h.sub.isSome then (h, some "Cannot publish to this stream")
  else if PublishingName = "" then (h, some "PublishingName is empty")
  else
    let r := h.relayService.NewPubsub PublishingName
    match r.2.2 with
    | some err => (h, some ("Failed to create pubsub: " ++ err))
    | none =>
      match r.2.1 with
      | none => (h, none)
      | some pubsub =>
        let pub := pubsub.Pub
        ({ h with relayService := r.1.store pub.pb, pub := some pub }, none)

/-- The method `Handler.OnPlay` of handler.go, for the stream name of the
command and the callback `onEventCallback(h.conn, ctx.StreamID)`. The new
Sub is appended to the channel found in the registry; when the publisher of
this handler points to that same channel it sees the appended Sub too. -/
def Handler.OnPlay (h : Handler) (StreamName : String) (eventCallback : FlvTag → GoError) :
    Handler × GoError :=
  if h.sub.isSome then (h, some "Cannot play on this stream")
  else
    let r := h.relayService.GetPubsub StreamName
    match r.2 with
    | some err => (h, some ("Failed to get pubsub: " ++ err))
    | none =>
      match r.1 with
      | none => (h, none)
      | some pubsub =>
        let pb1 := (pubsub.Sub eventCallback).1
        ({ relayService := h.relayService.store pb1,
           pub := h.pub.map (fun p => if p.pb.name = pubsub.name then { p with pb := pb1 } else p),
           sub := some { name := pubsub.name, index := pubsub.subs.length } }, none)

/-- A close call made by OnClose. -/
inductive CloseCall where
  | pubClose
  | subClose
deriving DecidableEq, Repr

/-- The method `Handler.OnClose` of handler.go; next to the handler it returns
the close calls it made, in order. `h.pub.Close()` is `Pub.Close` on the
registry; `h.sub.Close()` closes the Sub where it lives: in its channel if
that is still registered, and in the channel of this handler's publisher
when that is the same one. -/
def Handler.OnClose (h : Handler) : Handler × List CloseCall :=
  let r1 : Handler × List CloseCall :=
    match h.pub with
    | some pub =>
      let c := pub.Close h.relayService
      ({ h with relayService := c.2.1, pub := some c.1 }, [CloseCall.pubClose])
    | none => (h, [])
  match r1.1.sub with
  | some ptr =>
    let srv : RelayService :=
      match r1.1.relayService.streams ptr.name with
      | some pb => r1.1.relayService.store (pb.closeSub ptr.index).1
      | none => r1.1.relayService
    ({ r1.1 with
        relayService := srv,
        pub := r1.1.pub.map (fun p =>
          if p.pb.name = ptr.name then { p with pb := (p.pb.closeSub ptr.index).1 } else p) },
      r1.2 ++ [CloseCall.subClose])
  | none => r1

/-- A fresh handler on an empty registry. -/
def exHandler : Handler := { relayService := NewRelayService, pub := none, sub := none }

/-- The handler after a publish request and then a play request for the
stream "live". -/
def exBothRoles : Handler := ((exHandler.OnPublish "live").1.OnPlay "live" okCallback).1

/-- A fresh handler on a registry that holds the channel "live". -/
def exViewer : Handler := { relayService := exRegistry, pub := none, sub := none }

/-- The tags that successive deliveries of the units `l` to one subscriber
leave in their arguments. -/
def handedAll (s : Sub) : List FlvTag → List FlvTag
  | [] => []
  | flv :: rest => (s.onEvent flv).flv :: handedAll (s.onEvent flv).sub rest

/-- A Video tag that is both a sequence header and a key frame. -/
def exBoth : FlvTag := exVideo 0 FrameType.KeyFrame AVCPacketType.SequenceHeader 1

/-- A channel without cached video and with one subscriber. -/
def exFresh : Pub := { exPub with pb := (exPub.pb.Sub okCallback).1 }

/-- A loop body labels each of its deliveries with the index it runs at. -/
def Labelled (body : Nat → Sub → Sub × List Delivery) : Prop :=
  ∀ i sub d, d ∈ (body i sub).2 → d.sub = i

/-! ## The subscriber loop -/

theorem deliver_labelled (flv : FlvTag) : Labelled (fun i sub => deliver i sub flv) := by
  intro i sub d hd
  simp [deliver] at hd
  simp [hd]

theorem videoBody_labelled (sh kf : Option FlvTag) (flv : FlvTag) :
    Labelled (videoBody sh kf flv) := by
  intro i sub d hd
  unfold videoBody at hd
  split at hd
  · cases sh with
    | none =>
      cases kf with
      | none => simp at hd
      | some k =>
        simp [deliver] at hd
        simp [hd]
    | some h =>
      cases kf with
      | none =>
        simp [deliver] at hd
        simp [hd]
      | some k =>
        simp [deliver] at hd
        rcases hd with e | e <;> simp [e]
  · simp [deliver] at hd
    simp [hd]

theorem forSubs_length (body : Nat → Sub → Sub × List Delivery) (k : Nat) (subs : List Sub) :
    (forSubs body k subs).1.length = subs.length := by
  induction subs generalizing k with
  | nil => simp [forSubs]
  | cons s rest ih => simp [forSubs, ih]

theorem forSubs_sub_ge (body : Nat → Sub → Sub × List Delivery) (hb : Labelled body)
    (k : Nat) (subs : List Sub) (d : Delivery) (hd : d ∈ (forSubs body k subs).2) :
    k ≤ d.sub ∧ d.sub < k + subs.length := by
  induction subs generalizing k with
  | nil => simp [forSubs] at hd
  | cons s rest ih =>
    simp only [forSubs, List.mem_append] at hd
    rcases hd with h | h
    · have := hb k s d h
      simp [this]
    · have := ih (k + 1) h
      simp only [List.length_cons]
      omega

/-- The loop treats the subscriber at position `j` by the body alone: its
state afterwards and the deliveries made to it are those of the body. -/
theorem forSubs_at (body : Nat → Sub → Sub × List Delivery) (hb : Labelled body)
    (k : Nat) (subs : List Sub) (j : Nat) (s : Sub) (hs : subs[j]? = some s) :
    (forSubs body k subs).1[j]? = some (body (k + j) s).1 ∧
      entriesOf (k + j) (forSubs body k subs).2 = (body (k + j) s).2 := by
  induction subs generalizing k j with
  | nil => simp at hs
  | cons a rest ih =>
    cases j with
    | zero =>
      simp only [List.getElem?_cons_zero, Option.some.injEq] at hs
      subst hs
      refine ⟨by simp [forSubs], ?_⟩
      simp only [forSubs, entriesOf, Nat.add_zero, List.filter_append]
      have h1 : (body k a).2.filter (fun d => decide (d.sub = k)) = (body k a).2 := by
        apply List.filter_eq_self.2
        intro d hd
        simp [hb k a d hd]
      have h2 : (forSubs body (k + 1) rest).2.filter (fun d => decide (d.sub = k)) = [] := by
        apply List.filter_eq_nil_iff.2
        intro d hd
        have := (forSubs_sub_ge body hb (k + 1) rest d hd).1
        simp only [decide_eq_true_eq]
        omega
      rw [h1, h2, List.append_nil]
    | succ j =>
      simp only [List.getElem?_cons_succ] at hs
      have h := ih (k + 1) j hs
      have e : k + 1 + j = k + (j + 1) := by omega
      rw [e] at h
      refine ⟨by simpa [forSubs] using h.1, ?_⟩
      simp only [forSubs, entriesOf, List.filter_append]
      have h1 : (body k a).2.filter (fun d => decide (d.sub = k + (j + 1))) = [] := by
        apply List.filter_eq_nil_iff.2
        intro d hd
        have := hb k a d hd
        simp only [decide_eq_true_eq]
        omega
      rw [h1, List.nil_append]
      exact h.2

/-- No delivery is made to an index outside the subscriber list. -/
theorem forSubs_none (body : Nat → Sub → Sub × List Delivery) (hb : Labelled body)
    (subs : List Sub) (j : Nat) (hs : subs.length ≤ j) :
    entriesOf j (forSubs body 0 subs).2 = [] := by
  apply List.filter_eq_nil_iff.2
  intro d hd
  have := (forSubs_sub_ge body hb 0 subs d hd).2
  simp only [decide_eq_true_eq]
  omega

/-! ## Publish, one subscriber at a time -/

theorem Publish_err (p : Pub) (flv : FlvTag) : (p.Publish flv).err = none := by
  unfold Pub.Publish
  split <;> rfl

theorem Publish_video_caches (p : Pub) (flv : FlvTag) (d : VideoData) (hd : flv.Data = .video d) :
    (p.Publish flv).pub.avcSeqHeader =
        (if d.AVCPacketType = AVCPacketType.SequenceHeader then some flv else p.avcSeqHeader) ∧
      (p.Publish flv).pub.lastKeyFrame =
        (if d.FrameType = FrameType.KeyFrame then some flv else p.lastKeyFrame) := by
  unfold Pub.Publish
  rw [hd]
  by_cases h1 : d.AVCPacketType = AVCPacketType.SequenceHeader <;>
    by_cases h2 : d.FrameType = FrameType.KeyFrame <;> simp [h1, h2]

theorem Publish_video_at (p : Pub) (flv : FlvTag) (d : VideoData) (hd : flv.Data = .video d)
    (i : Nat) (s : Sub) (hs : p.pb.subs[i]? = some s) :
    (p.Publish flv).pub.pb.subs[i]? =
        some (videoBody (p.Publish flv).pub.avcSeqHeader (p.Publish flv).pub.lastKeyFrame
          flv i s).1 ∧
      entriesOf i (p.Publish flv).log =
        (videoBody (p.Publish flv).pub.avcSeqHeader (p.Publish flv).pub.lastKeyFrame flv i s).2 := by
  unfold Pub.Publish
  rw [hd]
  have key := fun sh kf =>
    forSubs_at (videoBody sh kf flv) (videoBody_labelled sh kf flv) 0 p.pb.subs i s hs
  simp only [Nat.zero_add] at key
  by_cases h1 : d.AVCPacketType = AVCPacketType.SequenceHeader <;>
    by_cases h2 : d.FrameType = FrameType.KeyFrame <;> simp [h1, h2, key]

theorem Publish_other_at (p : Pub) (flv : FlvTag) (hd : ∀ d, flv.Data ≠ .video d)
    (i : Nat) (s : Sub) (hs : p.pb.subs[i]? = some s) :
    (p.Publish flv).pub.pb.subs[i]? = some (deliver i s flv).1 ∧
      entriesOf i (p.Publish flv).log = (deliver i s flv).2 ∧
      (p.Publish flv).pub.avcSeqHeader = p.avcSeqHeader ∧
      (p.Publish flv).pub.lastKeyFrame = p.lastKeyFrame := by
  have key := forSubs_at (fun i sub => deliver i sub flv) (deliver_labelled flv) 0 p.pb.subs i s hs
  simp only [Nat.zero_add] at key
  unfold Pub.Publish
  split
  · exact ⟨key.1, key.2, rfl, rfl⟩
  · exact ⟨key.1, key.2, rfl, rfl⟩
  · rename_i d h
    exact absurd h (hd d)

/-! ## onEvent -/

theorem onEvent_closed (s : Sub) (flv : FlvTag) (h : s.closed = true) :
    s.onEvent flv = { sub := s, flv := flv, called := none, err := none } := by
  simp [Sub.onEvent, h]

theorem onEvent_flags (s : Sub) (flv : FlvTag) :
    (s.onEvent flv).sub.closed = s.closed ∧ (s.onEvent flv).sub.initialized = s.initialized ∧
      (s.onEvent flv).sub.eventCallback = s.eventCallback := by
  unfold Sub.onEvent
  by_cases h : s.closed = true
  · simp [h]
  · by_cases h2 : flv.Timestamp ≠ 0 ∧ s.lastTimestamp = 0 <;> simp [h, h2]

theorem onEvent_open_called (s : Sub) (flv : FlvTag) (h : s.closed = false) :
    (s.onEvent flv).called = some (s.onEvent flv).flv := by
  simp [Sub.onEvent, h]

/-! ## C1: join correctness -/

/-- C1, as stated, fails: an Inter-frame unit U1 whose packet type is
SequenceHeader replaces the cached sequence header before the fan-out, so the
late subscriber is delivered [copy of U1, copy of KF] and not
[copy of SH, copy of KF]. -/
theorem join_delivers_U1_counterexample :
    unitsTo 0 (exJoined.Publish
        (exVideo 80 FrameType.InterFrame AVCPacketType.SequenceHeader 3)).log =
      [cloneView (exVideo 80 FrameType.InterFrame AVCPacketType.SequenceHeader 3),
        cloneView exKF] ∧
    unitsTo 0 (exJoined.Publish
        (exVideo 80 FrameType.InterFrame AVCPacketType.SequenceHeader 3)).log ≠
      [cloneView exSH, cloneView exKF] := by
  decide

/-- C1 (amended): on a channel `p` whose caches are those left by publishing
the sequence header SH and then the key frame KF (KF not a sequence header),
for every open subscriber `s` at index `i` that is not yet initialized,
Publish of an Inter-frame Video unit U1 that is not a sequence header passes
to that subscriber exactly [copy of SH, copy of KF], in that order, invokes
its callback with exactly these two (timestamps rebased) and sets
initialized; the next Publish of any unit U2 passes it exactly one copy of
U2 and invokes its callback once, with that copy. -/
theorem join_correctness (p0 p : Pub) (SH KF U1 : FlvTag) (dSH dKF dU1 : VideoData)
    (i : Nat) (s : Sub)
    (hSH : SH.Data = .video dSH) (hSHp : dSH.AVCPacketType = AVCPacketType.SequenceHeader)
    (hKF : KF.Data = .video dKF) (hKFf : dKF.FrameType = FrameType.KeyFrame)
    (hKFp : dKF.AVCPacketType ≠ AVCPacketType.SequenceHeader)
    (hU1 : U1.Data = .video dU1) (hU1f : dU1.FrameType = FrameType.InterFrame)
    (hU1p : dU1.AVCPacketType ≠ AVCPacketType.SequenceHeader)
    (hsh : p.avcSeqHeader = ((p0.Publish SH).pub.Publish KF).pub.avcSeqHeader)
    (hkf : p.lastKeyFrame = ((p0.Publish SH).pub.Publish KF).pub.lastKeyFrame)
    (hs : p.pb.subs[i]? = some s) (hinit : s.initialized = false) (hopen : s.closed = false) :
    unitsTo i (p.Publish U1).log = [cloneView SH, cloneView KF] ∧
    calledOn i (p.Publish U1).log =
      [(s.onEvent (cloneView SH)).flv,
        ((s.onEvent (cloneView SH)).sub.onEvent (cloneView KF)).flv] ∧
    ∃ s1, (p.Publish U1).pub.pb.subs[i]? = some s1 ∧ s1.initialized = true ∧
      s1.closed = false ∧
      ∀ U2, unitsTo i ((p.Publish U1).pub.Publish U2).log = [cloneView U2] ∧
        calledOn i ((p.Publish U1).pub.Publish U2).log = [(s1.onEvent (cloneView U2)).flv] := by
  have c1 := Publish_video_caches p0 SH dSH hSH
  have c2 := Publish_video_caches (p0.Publish SH).pub KF dKF hKF
  rw [if_neg hKFp, c1.1, if_pos hSHp] at c2
  rw [if_pos hKFf] at c2
  rw [c2.1] at hsh
  rw [c2.2] at hkf
  have c3 := Publish_video_caches p U1 dU1 hU1
  have hne : dU1.FrameType ≠ FrameType.KeyFrame := by rw [hU1f]; decide
  rw [if_neg hU1p, if_neg hne, hsh, hkf] at c3
  have at1 := Publish_video_at p U1 dU1 hU1 i s hs
  rw [c3.1, c3.2] at at1
  have o1 := onEvent_flags s (cloneView SH)
  have o2 := onEvent_flags (s.onEvent (cloneView SH)).sub (cloneView KF)
  have hc1 : (s.onEvent (cloneView SH)).sub.closed = false := by rw [o1.1, hopen]
  have k1 := onEvent_open_called s (cloneView SH) hopen
  have k2 := onEvent_open_called (s.onEvent (cloneView SH)).sub (cloneView KF) hc1
  have hbody : videoBody (some SH) (some KF) U1 i s =
      ({ ((s.onEvent (cloneView SH)).sub.onEvent (cloneView KF)).sub with initialized := true },
        [{ sub := i, unit := cloneView SH, called := (s.onEvent (cloneView SH)).called,
           err := (s.onEvent (cloneView SH)).err },
         { sub := i, unit := cloneView KF,
           called := ((s.onEvent (cloneView SH)).sub.onEvent (cloneView KF)).called,
           err := ((s.onEvent (cloneView SH)).sub.onEvent (cloneView KF)).err }]) := by
    simp [videoBody, hinit, deliver]
  rw [hbody] at at1
  refine ⟨by simp [unitsTo, at1.2], by simp [calledOn, at1.2, k1, k2], _, at1.1, rfl, ?_, ?_⟩
  · show ((s.onEvent (cloneView SH)).sub.onEvent (cloneView KF)).sub.closed = false
    rw [o2.1, hc1]
  · intro U2
    have hcl : ({ ((s.onEvent (cloneView SH)).sub.onEvent (cloneView KF)).sub with
        initialized := true } : Sub).closed = false := by
      show ((s.onEvent (cloneView SH)).sub.onEvent (cloneView KF)).sub.closed = false
      rw [o2.1, hc1]
    have k3 := onEvent_open_called _ (cloneView U2) hcl
    cases hU2 : U2.Data with
    | video d2 =>
      have at2 := Publish_video_at (p.Publish U1).pub U2 d2 hU2 i _ at1.1
      simp only [videoBody, Bool.not_true, Bool.false_eq_true, if_false, deliver] at at2
      exact ⟨by simp [unitsTo, at2.2], by simp [calledOn, at2.2, k3]⟩
    | audio d2 =>
      have at2 := Publish_other_at (p.Publish U1).pub U2 (by simp [hU2]) i _ at1.1
      simp only [deliver] at at2
      exact ⟨by simp [unitsTo, at2.2.1], by simp [calledOn, at2.2.1, k3]⟩
    | script d2 =>
      have at2 := Publish_other_at (p.Publish U1).pub U2 (by simp [hU2]) i _ at1.1
      simp only [deliver] at at2
      exact ⟨by simp [unitsTo, at2.2.1], by simp [calledOn, at2.2.1, k3]⟩

/-- Witness of C1 (amended) on the sample channel: the late subscriber of
`exJoined` is delivered the sequence header and the key frame when the Inter
frame `exInter` is published. -/
theorem join_correctness_witness :
    unitsTo 0 (exJoined.Publish exInter).log = [cloneView exSH, cloneView exKF] :=
  (join_correctness exPub exJoined exSH exKF exInter _ _ _ 0 exSub rfl rfl rfl rfl (by decide)
    rfl rfl (by decide) rfl rfl rfl rfl rfl).1

/-! ## C2: timestamp rebasing -/

/-- C2 fails on the code: after the publisher sent a sequence header (time 0)
and a key frame (time 40), a subscriber joins and is delivered an Audio unit
of time 1000, which sets its baseline to 1000; the next Video unit (time
1040) replays the cached header and key frame to it, whose timestamps 0 and
40 are below the baseline, and the callback is invoked with the wrapped
timestamps 2^32 - 1000 and 2^32 - 960. -/
theorem rebasing_underflows :
    exHeard.pb.subs.map (fun s => (s.closed, s.initialized, s.lastTimestamp)) =
      [(false, false, 1000)] ∧
    (unitsTo 0 (exHeard.Publish (exVideo 1040 FrameType.InterFrame AVCPacketType.NALU 3)).log).map
      (fun u => u.Timestamp) = [0, 40] ∧
    (calledOn 0 (exHeard.Publish (exVideo 1040 FrameType.InterFrame AVCPacketType.NALU 3)).log).map
      (fun u => u.Timestamp) = [4294966296, 4294966336] := by
  decide

/-! ## C3: per-subscriber timelines -/

theorem cloneView_Timestamp (flv : FlvTag) : (cloneView flv).Timestamp = flv.Timestamp := by
  unfold cloneView
  split <;> rfl

theorem subU32_of_le (a b : Nat) (hab : b ≤ a) (ha : a < 2 ^ 32) : subU32 a b = a - b := by
  unfold subU32 uint32Mod
  have hb : b % 2 ^ 32 = b := Nat.mod_eq_of_lt (by omega)
  rw [hb]
  have e : a + 2 ^ 32 - b = (a - b) + 2 ^ 32 := by omega
  rw [e, Nat.add_mod_right]
  exact Nat.mod_eq_of_lt (by omega)

theorem onEvent_baseline_kept (s : Sub) (flv : FlvTag) (h : s.lastTimestamp ≠ 0) :
    (s.onEvent flv).sub.lastTimestamp = s.lastTimestamp := by
  unfold Sub.onEvent
  by_cases hc : s.closed = true <;> simp [hc, h]

theorem onEvent_open_flv (s : Sub) (flv : FlvTag) (h : s.closed = false) :
    (s.onEvent flv).called =
      some { flv with Timestamp := subU32 flv.Timestamp (s.onEvent flv).sub.lastTimestamp } := by
  simp [Sub.onEvent, h]

theorem deliverAll_baseline_kept (l : List FlvTag) (s : Sub) (h : s.lastTimestamp ≠ 0) :
    (deliverAll s l).lastTimestamp = s.lastTimestamp := by
  induction l generalizing s with
  | nil => rfl
  | cons flv rest ih =>
    have h1 := onEvent_baseline_kept s flv h
    have h2 := ih (s.onEvent flv).sub (by rw [h1]; exact h)
    simp only [deliverAll, List.foldl_cons] at h2 ⊢
    rw [h2, h1]

theorem deliverAll_baseline (l : List FlvTag) (s : Sub) (hc : s.closed = false)
    (h : s.lastTimestamp = 0) : (deliverAll s l).lastTimestamp = firstNonZero l := by
  induction l generalizing s with
  | nil => simpa [deliverAll, firstNonZero] using h
  | cons flv rest ih =>
    by_cases ht : flv.Timestamp = 0
    · have e : (s.onEvent flv).sub = s := by simp [Sub.onEvent, hc, ht]
      have h2 := ih s hc h
      simp only [deliverAll, List.foldl_cons, firstNonZero, e, ht, ne_eq, not_true_eq_false,
        if_false] at h2 ⊢
      exact h2
    · have e : (s.onEvent flv).sub.lastTimestamp = flv.Timestamp := by
        simp [Sub.onEvent, hc, ht, h]
      have h2 := deliverAll_baseline_kept rest (s.onEvent flv).sub (by rw [e]; exact ht)
      simp only [deliverAll, List.foldl_cons, firstNonZero, ht, ne_eq, not_false_eq_true,
        if_true] at h2 ⊢
      rw [h2, e]

/-- An open subscriber with its baseline set, reached by a Publish that
delivers the unit itself: its callback is invoked once, with the timestamp
rebased on that subscriber's own baseline. -/
theorem Publish_rebased (p : Pub) (U : FlvTag) (i : Nat) (s : Sub)
    (hs : p.pb.subs[i]? = some s) (hc : s.closed = false) (hb : s.lastTimestamp ≠ 0)
    (hle : s.lastTimestamp ≤ U.Timestamp) (hlt : U.Timestamp < 2 ^ 32)
    (hk : (∀ d, U.Data ≠ .video d) ∨ s.initialized = true) :
    calledOn i (p.Publish U).log =
      [{ cloneView U with Timestamp := U.Timestamp - s.lastTimestamp }] := by
  have k := onEvent_open_flv s (cloneView U) hc
  rw [onEvent_baseline_kept s (cloneView U) hb, cloneView_Timestamp,
    subU32_of_le _ _ hle hlt] at k
  cases hU : U.Data with
  | video d =>
    have hi : s.initialized = true := by
      rcases hk with h | h
      · exact absurd hU (h d)
      · exact h
    have at2 := Publish_video_at p U d hU i s hs
    simp only [videoBody, hi, Bool.not_true, Bool.false_eq_true, if_false, deliver] at at2
    simp [calledOn, at2.2, k]
  | audio d =>
    have at2 := Publish_other_at p U (by simp [hU]) i s hs
    simp only [deliver] at at2
    simp [calledOn, at2.2.1, k]
  | script d =>
    have at2 := Publish_other_at p U (by simp [hU]) i s hs
    simp only [deliver] at at2
    simp [calledOn, at2.2.1, k]

/-- C3, as stated, fails: subscriber A has baseline 100 and subscriber B has
baseline 500, both are open, and one Publish of a unit of time 600, an Inter
frame on a channel without cached video, invokes neither callback: both
subscribers are still uninitialized, so the round primes them and drops the
unit. -/
theorem timeline_video_counterexample :
    exTwoListeners.pb.subs.map (fun s => (s.closed, s.initialized, s.lastTimestamp)) =
      [(false, false, 100), (false, false, 500)] ∧
    calledOn 0 (exTwoListeners.Publish
        (exVideo 600 FrameType.InterFrame AVCPacketType.NALU 3)).log = [] ∧
    calledOn 1 (exTwoListeners.Publish
        (exVideo 600 FrameType.InterFrame AVCPacketType.NALU 3)).log = [] := by
  decide

/-- C3 (amended): the baseline of an open subscriber is the first non-zero
timestamp it was delivered; onEvent hands a unit of time t to the callback
with time t - baseline (modulo 2^32); whatever the other subscribers of the
channel are, a Publish that delivers the unit itself to an open subscriber
(an Audio or Metadata unit, or a Video unit when the subscriber is
initialized) invokes its callback with the time rebased on its own baseline;
so with A's baseline 100 and B's 500 a unit of time 600 reaches A with time
500 and B with time 100. -/
theorem timeline_independence :
    (∀ (s : Sub) (l : List FlvTag), s.closed = false → s.lastTimestamp = 0 →
      (deliverAll s l).lastTimestamp = firstNonZero l) ∧
    (∀ (s : Sub) (flv : FlvTag), s.closed = false →
      (s.onEvent flv).called =
        some { flv with Timestamp := subU32 flv.Timestamp (s.onEvent flv).sub.lastTimestamp }) ∧
    (∀ (p : Pub) (U : FlvTag) (i : Nat) (s : Sub), p.pb.subs[i]? = some s →
      s.closed = false → s.lastTimestamp ≠ 0 → s.lastTimestamp ≤ U.Timestamp →
      U.Timestamp < 2 ^ 32 → ((∀ d, U.Data ≠ .video d) ∨ s.initialized = true) →
      calledOn i (p.Publish U).log =
        [{ cloneView U with Timestamp := U.Timestamp - s.lastTimestamp }]) ∧
    (∀ (p : Pub) (U : FlvTag) (a b : Nat) (A B : Sub),
      p.pb.subs[a]? = some A → p.pb.subs[b]? = some B →
      A.closed = false → B.closed = false →
      A.lastTimestamp = 100 → B.lastTimestamp = 500 → U.Timestamp = 600 →
      ((∀ d, U.Data ≠ .video d) ∨ (A.initialized = true ∧ B.initialized = true)) →
      (calledOn a (p.Publish U).log).map (fun u => u.Timestamp) = [500] ∧
      (calledOn b (p.Publish U).log).map (fun u => u.Timestamp) = [100]) := by
  refine ⟨fun s l hc h => deliverAll_baseline l s hc h, fun s flv hc => onEvent_open_flv s flv hc,
    fun p U i s hs hc hb hle hlt hk => Publish_rebased p U i s hs hc hb hle hlt hk, ?_⟩
  intro p U a b A B ha hb hA hB tA tB tU hk
  have kA := Publish_rebased p U a A ha hA (by omega) (by omega) (by omega)
    (hk.elim Or.inl (fun h => Or.inr h.1))
  have kB := Publish_rebased p U b B hb hB (by omega) (by omega) (by omega)
    (hk.elim Or.inl (fun h => Or.inr h.2))
  rw [kA, kB, tA, tB, tU]
  simp

/-- Witness of C3 (amended): on the sample channel with baselines 100 and
500, an Audio unit of time 600 reaches A with time 500 and B with time 100. -/
theorem timeline_independence_witness :
    (calledOn 0 (exTwoListeners.Publish (exAudio 600 6)).log).map (fun u => u.Timestamp) = [500] ∧
    (calledOn 1 (exTwoListeners.Publish (exAudio 600 6)).log).map (fun u => u.Timestamp) = [100] :=
  timeline_independence.2.2.2 exTwoListeners (exAudio 600 6) 0 1
    { initialized := false, closed := false, lastTimestamp := 100, eventCallback := okCallback }
    { initialized := false, closed := false, lastTimestamp := 500, eventCallback := okCallback }
    rfl rfl rfl rfl rfl rfl rfl (Or.inl (fun d h => by simp [exAudio] at h))

/-! ## C4: fan-out isolation -/

theorem Publish_video_eq (p : Pub) (flv : FlvTag) (d : VideoData) (hd : flv.Data = .video d) :
    p.Publish flv =
      { pub :=
          { pb := { p.pb with subs :=
              (forSubs (videoBody
                (if d.AVCPacketType = AVCPacketType.SequenceHeader then some flv
                  else p.avcSeqHeader)
                (if d.FrameType = FrameType.KeyFrame then some flv else p.lastKeyFrame) flv)
                0 p.pb.subs).1 },
            avcSeqHeader :=
              if d.AVCPacketType = AVCPacketType.SequenceHeader then some flv
              else p.avcSeqHeader,
            lastKeyFrame :=
              if d.FrameType = FrameType.KeyFrame then some flv else p.lastKeyFrame },
        log :=
          (forSubs (videoBody
            (if d.AVCPacketType = AVCPacketType.SequenceHeader then some flv
              else p.avcSeqHeader)
            (if d.FrameType = FrameType.KeyFrame then some flv else p.lastKeyFrame) flv)
            0 p.pb.subs).2,
        err := none } := by
  unfold Pub.Publish
  rw [hd]
  by_cases h1 : d.AVCPacketType = AVCPacketType.SequenceHeader <;>
    by_cases h2 : d.FrameType = FrameType.KeyFrame <;> simp [h1, h2]

theorem Publish_other_eq (p : Pub) (flv : FlvTag) (hd : ∀ d, flv.Data ≠ .video d) :
    p.Publish flv =
      { pub := { p with pb := { p.pb with subs :=
          (forSubs (fun i sub => deliver i sub flv) 0 p.pb.subs).1 } },
        log := (forSubs (fun i sub => deliver i sub flv) 0 p.pb.subs).2,
        err := none } := by
  unfold Pub.Publish
  split
  · rfl
  · rfl
  · rename_i d h
    exact absurd h (hd d)

theorem forSubs_at_none (body : Nat → Sub → Sub × List Delivery) (hb : Labelled body)
    (subs : List Sub) (j : Nat) (hs : subs[j]? = none) :
    (forSubs body 0 subs).1[j]? = none ∧ entriesOf j (forSubs body 0 subs).2 = [] := by
  have hl : subs.length ≤ j := List.getElem?_eq_none_iff.1 hs
  refine ⟨List.getElem?_eq_none_iff.2 ?_, forSubs_none body hb subs j hl⟩
  rw [forSubs_length]
  exact hl

/-- With the same caches, what Publish does to the subscriber at index `j`
depends on that subscriber alone. -/
theorem Publish_local (p q : Pub) (U : FlvTag) (j : Nat)
    (hsh : q.avcSeqHeader = p.avcSeqHeader) (hkf : q.lastKeyFrame = p.lastKeyFrame)
    (hj : q.pb.subs[j]? = p.pb.subs[j]?) :
    (q.Publish U).pub.pb.subs[j]? = (p.Publish U).pub.pb.subs[j]? ∧
      entriesOf j (q.Publish U).log = entriesOf j (p.Publish U).log := by
  cases hU : U.Data with
  | video d =>
    rw [Publish_video_eq p U d hU, Publish_video_eq q U d hU, hsh, hkf]
    generalize (if d.AVCPacketType = AVCPacketType.SequenceHeader then some U
      else p.avcSeqHeader) = sh
    generalize (if d.FrameType = FrameType.KeyFrame then some U else p.lastKeyFrame) = kf
    cases hp : p.pb.subs[j]? with
    | none =>
      rw [hp] at hj
      have a := forSubs_at_none (videoBody sh kf U) (videoBody_labelled sh kf U) _ j hp
      have b := forSubs_at_none (videoBody sh kf U) (videoBody_labelled sh kf U) _ j hj
      exact ⟨by rw [a.1, b.1], by rw [a.2, b.2]⟩
    | some s =>
      rw [hp] at hj
      have a := forSubs_at (videoBody sh kf U) (videoBody_labelled sh kf U) 0 _ j s hp
      have b := forSubs_at (videoBody sh kf U) (videoBody_labelled sh kf U) 0 _ j s hj
      simp only [Nat.zero_add] at a b
      exact ⟨by rw [a.1, b.1], by rw [a.2, b.2]⟩
  | audio d =>
    rw [Publish_other_eq p U (by simp [hU]), Publish_other_eq q U (by simp [hU])]
    cases hp : p.pb.subs[j]? with
    | none =>
      rw [hp] at hj
      have a := forSubs_at_none (fun i sub => deliver i sub U) (deliver_labelled U) _ j hp
      have b := forSubs_at_none (fun i sub => deliver i sub U) (deliver_labelled U) _ j hj
      exact ⟨by rw [a.1, b.1], by rw [a.2, b.2]⟩
    | some s =>
      rw [hp] at hj
      have a := forSubs_at (fun i sub => deliver i sub U) (deliver_labelled U) 0 _ j s hp
      have b := forSubs_at (fun i sub => deliver i sub U) (deliver_labelled U) 0 _ j s hj
      simp only [Nat.zero_add] at a b
      exact ⟨by rw [a.1, b.1], by rw [a.2, b.2]⟩
  | script d =>
    rw [Publish_other_eq p U (by simp [hU]), Publish_other_eq q U (by simp [hU])]
    cases hp : p.pb.subs[j]? with
    | none =>
      rw [hp] at hj
      have a := forSubs_at_none (fun i sub => deliver i sub U) (deliver_labelled U) _ j hp
      have b := forSubs_at_none (fun i sub => deliver i sub U) (deliver_labelled U) _ j hj
      exact ⟨by rw [a.1, b.1], by rw [a.2, b.2]⟩
    | some s =>
      rw [hp] at hj
      have a := forSubs_at (fun i sub => deliver i sub U) (deliver_labelled U) 0 _ j s hp
      have b := forSubs_at (fun i sub => deliver i sub U) (deliver_labelled U) 0 _ j s hj
      simp only [Nat.zero_add] at a b
      exact ⟨by rw [a.1, b.1], by rw [a.2, b.2]⟩

theorem replaceCallback_other (subs : List Sub) (i j : Nat) (cb : FlvTag → GoError)
    (hij : j ≠ i) : (replaceCallback subs i cb)[j]? = subs[j]? := by
  induction subs generalizing i j with
  | nil => cases i <;> simp [replaceCallback]
  | cons s rest ih =>
    cases i with
    | zero =>
      cases j with
      | zero => exact absurd rfl hij
      | succ j => simp [replaceCallback]
    | succ i =>
      cases j with
      | zero => simp [replaceCallback]
      | succ j =>
        simp only [replaceCallback, List.getElem?_cons_succ]
        exact ih i j (by omega)

/-- C4: Publish returns no error whatever the callbacks return, and what it
does for subscriber `j` (the state it leaves it in, the copies it passes to
its onEvent, the callback invocations and their results) is the same
whatever the callback of another subscriber `i` returns: replacing that
callback by any other one, failing or succeeding, changes nothing for `j`. -/
theorem fanout_isolation (p : Pub) (U : FlvTag) (i j : Nat) (cb : FlvTag → GoError)
    (hij : j ≠ i) :
    (p.Publish U).err = none ∧
    (Pub.Publish { p with pb := { p.pb with subs := replaceCallback p.pb.subs i cb } } U).err
      = none ∧
    (Pub.Publish { p with pb := { p.pb with subs := replaceCallback p.pb.subs i cb } }
      U).pub.pb.subs[j]? = (p.Publish U).pub.pb.subs[j]? ∧
    entriesOf j
      (Pub.Publish { p with pb := { p.pb with subs := replaceCallback p.pb.subs i cb } } U).log
      = entriesOf j (p.Publish U).log := by
  have h := Publish_local p
    { p with pb := { p.pb with subs := replaceCallback p.pb.subs i cb } } U j rfl rfl
    (replaceCallback_other p.pb.subs i j cb hij)
  exact ⟨Publish_err _ _, Publish_err _ _, h.1, h.2⟩

/-- Witness of C4: on the sample channel the callback of subscriber 0 fails
and that of subscriber 1 is invoked all the same; what subscriber 1 gets is
what it gets when the callback of subscriber 0 succeeds. -/
theorem fanout_isolation_witness :
    (exFaulty.Publish (exAudio 10 4)).log.map (fun d => (d.sub, d.err, d.called.isSome)) =
      [(0, some "write failed", true), (1, none, true)] ∧
    entriesOf 1
      (Pub.Publish
        { exFaulty with pb := { exFaulty.pb with
            subs := replaceCallback exFaulty.pb.subs 0 okCallback } } (exAudio 10 4)).log
      = entriesOf 1 (exFaulty.Publish (exAudio 10 4)).log :=
  ⟨by decide, (fanout_isolation exFaulty (exAudio 10 4) 0 1 okCallback (by decide)).2.2.2⟩

/-! ## C5: teardown -/

theorem Close_closed (s : Sub) : s.Close.1 = { s with closed := true } ∧ s.Close.2 = none := by
  unfold Sub.Close
  by_cases h : s.closed = true
  · cases s
    simp only at h
    simp [h]
  · simp [h]

theorem RemovePubsub_unmaps (srv : RelayService) (key : String) :
    (srv.RemovePubsub key).1.streams key = none := by
  unfold RelayService.RemovePubsub
  cases h : srv.streams key with
  | none => simpa using h
  | some pb => simp

/-- C5: `Pub.Close` (that is `Pubsub.Deregister`) leaves the subscriber set of
the channel as it was but with every subscriber closed, so that every later
onEvent on any of them returns nil, invokes no callback and leaves the
subscriber as it is (closed); and GetPubsub of the channel's name then fails
with "not published". -/
theorem teardown_propagation (p : Pub) (srv : RelayService) :
    (p.Close srv).1.pb.subs = p.pb.subs.map (fun s => { s with closed := true }) ∧
    (∀ s ∈ (p.Close srv).1.pb.subs, s.closed = true ∧
      ∀ flv, (s.onEvent flv).err = none ∧ (s.onEvent flv).called = none ∧
        (s.onEvent flv).sub = s) ∧
    (p.Close srv).2.1.GetPubsub p.pb.name = (none, some ("not published: " ++ p.pb.name)) := by
  have hsubs : (p.Close srv).1.pb.subs = p.pb.subs.map (fun s => { s with closed := true }) := by
    simp only [Pub.Close, Pubsub.Deregister]
    apply List.map_congr_left
    intro s _
    exact (Close_closed s).1
  refine ⟨hsubs, ?_, ?_⟩
  · intro s hs
    rw [hsubs, List.mem_map] at hs
    obtain ⟨s0, _, rfl⟩ := hs
    refine ⟨rfl, fun flv => ?_⟩
    rw [onEvent_closed _ flv rfl]
    exact ⟨rfl, rfl, rfl⟩
  · have h := RemovePubsub_unmaps srv p.pb.name
    simp only [Pub.Close, Pubsub.Deregister, RelayService.GetPubsub]
    rw [h]

/-! ## C10: delivery after close -/

/-- C10: on a closed subscriber onEvent returns nil, does not invoke the
callback, and leaves the subscriber (its baseline in particular) and the
unit (its timestamp in particular) as they are. -/
theorem onEvent_after_close (s : Sub) (flv : FlvTag) (h : s.closed = true) :
    (s.onEvent flv).err = none ∧ (s.onEvent flv).called = none ∧
    (s.onEvent flv).sub = s ∧ (s.onEvent flv).sub.lastTimestamp = s.lastTimestamp ∧
    (s.onEvent flv).flv = flv ∧ (s.onEvent flv).flv.Timestamp = flv.Timestamp := by
  rw [onEvent_closed s flv h]
  exact ⟨rfl, rfl, rfl, rfl, rfl, rfl⟩

/-- Witness of C10: a closed subscriber with baseline 100 is passed a unit of
time 600. -/
theorem onEvent_after_close_witness :
    (exClosed.onEvent (exAudio 600 4)).err = none ∧
    (exClosed.onEvent (exAudio 600 4)).called = none ∧
    (exClosed.onEvent (exAudio 600 4)).sub.lastTimestamp = 100 ∧
    (exClosed.onEvent (exAudio 600 4)).flv.Timestamp = 600 :=
  ⟨(onEvent_after_close exClosed (exAudio 600 4) rfl).1,
    (onEvent_after_close exClosed (exAudio 600 4) rfl).2.1,
    (onEvent_after_close exClosed (exAudio 600 4) rfl).2.2.2.1,
    (onEvent_after_close exClosed (exAudio 600 4) rfl).2.2.2.2.2⟩

/-! ## C6: cloneView -/

/-- The copy made by cloneView agrees with the original in kind, timestamp,
header fields and payload bytes, and its payload lives in the same backing
array (for Metadata: in the same map). -/
theorem cloneView_fields (h : Heap) (flv : FlvTag) :
    (cloneView flv).TagType = flv.TagType ∧ (cloneView flv).Timestamp = flv.Timestamp ∧
    (cloneView flv).StreamID = flv.StreamID ∧ (cloneView flv).payload h = flv.payload h ∧
    (cloneView flv).buffer?.map (fun b => b.Bytes.arr) = flv.buffer?.map (fun b => b.Bytes.arr) ∧
    (∀ d, flv.Data = .script d → (cloneView flv).Data = .script d) := by
  unfold cloneView
  cases hd : flv.Data with
  | audio d => simp [FlvTag.payload, FlvTag.buffer?, hd, NewBuffer, Buffer.Bytes]
  | video d => simp [FlvTag.payload, FlvTag.buffer?, hd, NewBuffer, Buffer.Bytes]
  | script d => simp [FlvTag.payload, FlvTag.buffer?, hd]

/-- C6 fails on the code: the copies that cloneView makes of one Audio unit
for subscriber A and for subscriber B read the payload 1, 2, 3, but they and
the original share the backing array: after byte 0 of A's copy is
overwritten with 9, B's copy and the original read 9, 2, 3. The copy of a
Metadata unit refers to the same map as the original. -/
theorem cloneView_shares_payload :
    (cloneView (exAudio 0 4)).payload exHeap = [1, 2, 3] ∧
    (exAudio 0 4).payload exHeap = [1, 2, 3] ∧
    (cloneView (exAudio 0 4)).payload
      (writePayload exHeap (cloneView (exAudio 0 4)) 0 9) = [9, 2, 3] ∧
    (exAudio 0 4).payload (writePayload exHeap (cloneView (exAudio 0 4)) 0 9) = [9, 2, 3] ∧
    (cloneView (exScript 0 5)).Data = .script { Objects := 5 } := by
  decide

/-! ## C7, C8: the registry -/

theorem NewPubsub_keeps_mapped (s : RelayService) (k key : String)
    (h : (s.streams key).isSome = true) : ((s.NewPubsub k).1.streams key).isSome = true := by
  unfold RelayService.NewPubsub
  cases hk : s.streams k with
  | some pb => simpa using h
  | none =>
    by_cases e : key = k
    · simp [e]
    · simpa [e] using h

theorem createAll_keeps_mapped (ks : List String) (s : RelayService) (key : String)
    (h : (s.streams key).isSome = true) : ((createAll s ks).streams key).isSome = true := by
  induction ks generalizing s with
  | nil => exact h
  | cons k rest ih => exact ih (s.NewPubsub k).1 (NewPubsub_keeps_mapped s k key h)

theorem NewPubsub_mapped (s : RelayService) (key : String) (h : (s.streams key).isSome = true) :
    s.NewPubsub key = (s, none, some ("already published: " ++ key)) := by
  unfold RelayService.NewPubsub
  cases hk : s.streams key with
  | some pb => rfl
  | none => simp [hk] at h

/-- C7: `RelayService.NewPubsub` fails, with "already published", exactly when
the name is mapped, and then leaves the registry as it is and returns no
channel; otherwise it returns a new channel with that name and no
subscribers, maps the name to it and leaves every other name as it was. Of
two calls for an unmapped name, with any further NewPubsub calls but no
removal in between, the first succeeds and the second fails. -/
theorem createChannel_spec (s : RelayService) (key : String) :
    ((s.NewPubsub key).2.2 ≠ none ↔ (s.streams key).isSome = true) ∧
    ((s.streams key).isSome = true →
      s.NewPubsub key = (s, none, some ("already published: " ++ key))) ∧
    (s.streams key = none →
      (s.NewPubsub key).2.2 = none ∧
      (s.NewPubsub key).2.1 = some { name := key, pub := false, subs := [] } ∧
      (s.NewPubsub key).1.streams key = some { name := key, pub := false, subs := [] } ∧
      (∀ k, k ≠ key → (s.NewPubsub key).1.streams k = s.streams k) ∧
      ∀ ks : List String,
        ((createAll (s.NewPubsub key).1 ks).NewPubsub key).2.2 =
          some ("already published: " ++ key)) := by
  refine ⟨?_, NewPubsub_mapped s key, ?_⟩
  · unfold RelayService.NewPubsub
    cases hk : s.streams key <;> simp
  · intro h
    have e : s.NewPubsub key =
        ({ streams := fun k => if k = key then some (NewPubsub key) else s.streams k },
          some (NewPubsub key), none) := by
      simp [RelayService.NewPubsub, h]
    refine ⟨by rw [e], by rw [e]; rfl, by rw [e]; simp [NewPubsub], ?_, ?_⟩
    · intro k hk
      rw [e]
      simp [hk]
    · intro ks
      have hm : ((s.NewPubsub key).1.streams key).isSome = true := by
        rw [e]
        simp
      rw [NewPubsub_mapped _ key (createAll_keeps_mapped ks _ key hm)]

/-- Witness of C7: on the empty registry the first NewPubsub of "live"
succeeds, and after NewPubsub of "other" and of "live" the next NewPubsub of
"live" fails. -/
theorem createChannel_spec_witness :
    (NewRelayService.NewPubsub "live").2.2 = none ∧
    ((createAll (NewRelayService.NewPubsub "live").1 ["other", "live"]).NewPubsub "live").2.2 =
      some ("already published: " ++ "live") :=
  ⟨((createChannel_spec NewRelayService "live").2.2 rfl).1,
    ((createChannel_spec NewRelayService "live").2.2 rfl).2.2.2.2 ["other", "live"]⟩

/-- C8: `RelayService.RemovePubsub` fails, with "not published", exactly when
the name is not mapped, and then leaves the registry as it is; otherwise it
returns nil, the name is no longer mapped, every other name is as it was, and
a second RemovePubsub of the name fails. -/
theorem removeChannel_spec (s : RelayService) (key : String) :
    ((s.RemovePubsub key).2 ≠ none ↔ s.streams key = none) ∧
    (s.streams key = none → s.RemovePubsub key = (s, some ("not published: " ++ key))) ∧
    ((s.streams key).isSome = true →
      (s.RemovePubsub key).2 = none ∧
      (s.RemovePubsub key).1.streams key = none ∧
      (∀ k, k ≠ key → (s.RemovePubsub key).1.streams k = s.streams k) ∧
      ((s.RemovePubsub key).1.RemovePubsub key).2 = some ("not published: " ++ key)) := by
  refine ⟨?_, ?_, ?_⟩
  · unfold RelayService.RemovePubsub
    cases hk : s.streams key <;> simp
  · intro h
    simp [RelayService.RemovePubsub, h]
  · intro h
    have hu := RemovePubsub_unmaps s key
    cases hk : s.streams key with
    | none => simp [hk] at h
    | some pb =>
      refine ⟨by simp [RelayService.RemovePubsub, hk], hu, ?_, ?_⟩
      · intro k hne
        simp [RelayService.RemovePubsub, hk, hne]
      · have h2 := (show ∀ r : RelayService, r.streams key = none →
            (r.RemovePubsub key).2 = some ("not published: " ++ key) from
          fun r hr => by simp [RelayService.RemovePubsub, hr])
        exact h2 _ hu

/-- Witness of C8: on the registry holding "live", RemovePubsub of "live"
succeeds and a second one fails. -/
theorem removeChannel_spec_witness :
    (exRegistry.RemovePubsub "live").2 = none ∧
    ((exRegistry.RemovePubsub "live").1.RemovePubsub "live").2 =
      some ("not published: " ++ "live") :=
  ⟨((removeChannel_spec exRegistry "live").2.2 rfl).1,
    ((removeChannel_spec exRegistry "live").2.2 rfl).2.2.2⟩

/-! ## C9: Audio and Metadata fan-out -/

theorem forSubs_deliver (flv : FlvTag) (k : Nat) (subs : List Sub) :
    (forSubs (fun i sub => deliver i sub flv) k subs).1 =
        subs.map (fun s => (s.onEvent (cloneView flv)).sub) ∧
      (forSubs (fun i sub => deliver i sub flv) k subs).2.map (fun d => (d.sub, d.unit)) =
        (List.range' k subs.length).map (fun i => (i, cloneView flv)) := by
  induction subs generalizing k with
  | nil => simp [forSubs]
  | cons s rest ih =>
    have h := ih (k + 1)
    simp only [forSubs, List.map_cons, List.map_append, List.length_cons, List.range'_succ, h.1,
      h.2]
    simp [deliver]

/-- C9: for an Audio or Metadata unit Publish passes exactly one copy of the
unit to the onEvent of every subscriber of the channel, in the order of the
subscriber list, whatever its initialized flag; every open subscriber has its
callback invoked exactly once, with that copy; the initialized flags and the
two caches are left as they are. -/
theorem audio_metadata_fanout (p : Pub) (U : FlvTag) (hU : ∀ d, U.Data ≠ .video d) :
    (p.Publish U).log.map (fun d => (d.sub, d.unit)) =
      (List.range p.pb.subs.length).map (fun i => (i, cloneView U)) ∧
    (p.Publish U).pub.pb.subs = p.pb.subs.map (fun s => (s.onEvent (cloneView U)).sub) ∧
    (∀ i s, p.pb.subs[i]? = some s → s.closed = false →
      calledOn i (p.Publish U).log = [(s.onEvent (cloneView U)).flv]) ∧
    (p.Publish U).pub.pb.subs.map (fun s => s.initialized) =
      p.pb.subs.map (fun s => s.initialized) ∧
    (p.Publish U).pub.avcSeqHeader = p.avcSeqHeader ∧
    (p.Publish U).pub.lastKeyFrame = p.lastKeyFrame := by
  have e := Publish_other_eq p U hU
  have f := forSubs_deliver U 0 p.pb.subs
  have hsubs : (p.Publish U).pub.pb.subs =
      p.pb.subs.map (fun s => (s.onEvent (cloneView U)).sub) := by
    rw [e]
    exact f.1
  refine ⟨?_, hsubs, ?_, ?_, by rw [e], by rw [e]⟩
  · rw [e, List.range_eq_range']
    exact f.2
  · intro i s hs hc
    have at2 := Publish_other_at p U hU i s hs
    have k := onEvent_open_called s (cloneView U) hc
    simp only [deliver] at at2
    simp [calledOn, at2.2.1, k]
  · rw [hsubs, List.map_map]
    apply List.map_congr_left
    intro s _
    exact (onEvent_flags s (cloneView U)).2.1

/-- Witness of C9: on the sample channel with two subscribers, none of them
initialized, an Audio unit is passed once to each, in order. -/
theorem audio_metadata_fanout_witness :
    (exFaulty.Publish (exAudio 10 4)).log.map (fun d => (d.sub, d.unit)) =
      [(0, cloneView (exAudio 10 4)), (1, cloneView (exAudio 10 4))] :=
  (audio_metadata_fanout exFaulty (exAudio 10 4) (fun d h => by simp [exAudio] at h)).1

/-! ## C11: idempotent close -/

theorem closeSub_subs (pb : Pubsub) (i : Nat) :
    (pb.closeSub i).1.subs = pb.subs.modify (fun s => { s with closed := true }) i ∧
      (pb.closeSub i).2 = none ∧ (pb.closeSub i).1.name = pb.name ∧
      (pb.closeSub i).1.pub = pb.pub := by
  unfold Pubsub.closeSub
  cases h : pb.subs[i]? with
  | none =>
    have hl : pb.subs.length ≤ i := List.getElem?_eq_none_iff.1 h
    refine ⟨?_, rfl, rfl, rfl⟩
    apply List.ext_getElem?
    intro j
    rw [List.getElem?_modify]
    by_cases e : i = j
    · subst e
      simp [h]
    · simp [e]
  | some sub =>
    refine ⟨?_, (Close_closed sub).2, rfl, rfl⟩
    apply List.ext_getElem?
    intro j
    simp only [(Close_closed sub).1]
    rw [List.getElem?_modify, List.getElem?_set]
    by_cases e : i = j
    · subst e
      have hl : i < pb.subs.length := by
        by_contra hc
        rw [List.getElem?_eq_none_iff.2 (by omega)] at h
        exact Option.noConfusion h
      simp [h, hl]
    · simp [e]

/-- C11: `Sub.Close` returns nil and sets closed, leaving initialized,
lastTimestamp and the callback as they are, and a second Close returns the
same result and state as the first; closing the subscriber at index `i` of a
channel keeps the channel's name and its subscriber list in length and in
every other position, the subscriber staying in the list at its position,
closed, and doing so twice is the same as doing so once. -/
theorem close_idempotent (s : Sub) (pb : Pubsub) (i : Nat) :
    s.Close.2 = none ∧ s.Close.1 = { s with closed := true } ∧
    s.Close.1.closed = true ∧ s.Close.1.initialized = s.initialized ∧
    s.Close.1.lastTimestamp = s.lastTimestamp ∧ s.Close.1.eventCallback = s.eventCallback ∧
    s.Close.1.Close = s.Close ∧
    (pb.closeSub i).2 = none ∧ (pb.closeSub i).1.name = pb.name ∧
    (pb.closeSub i).1.subs.length = pb.subs.length ∧
    (∀ j, j ≠ i → (pb.closeSub i).1.subs[j]? = pb.subs[j]?) ∧
    (pb.closeSub i).1.subs[i]? = pb.subs[i]?.map (fun s => { s with closed := true }) ∧
    ((pb.closeSub i).1.closeSub i).1.subs = (pb.closeSub i).1.subs ∧
    ((pb.closeSub i).1.closeSub i).2 = (pb.closeSub i).2 := by
  have c := Close_closed s
  have c2 := Close_closed s.Close.1
  have k := closeSub_subs pb i
  have k2 := closeSub_subs (pb.closeSub i).1 i
  refine ⟨c.2, c.1, by rw [c.1], by rw [c.1], by rw [c.1], by rw [c.1], ?_, k.2.1, k.2.2.1, ?_, ?_,
    ?_, ?_, by rw [k2.2.1, k.2.1]⟩
  · apply Prod.ext
    · rw [c2.1, c.1]
    · rw [c2.2, c.2]
  · rw [k.1, List.length_modify]
  · intro j hj
    rw [k.1, List.getElem?_modify]
    simp [Ne.symm hj]
  · rw [k.1, List.getElem?_modify]
    simp
  · rw [k2.1, k.1]
    apply List.ext_getElem?
    intro j
    rw [List.getElem?_modify, List.getElem?_modify]
    by_cases e : i = j
    · subst e
      cases pb.subs[i]? <;> simp
    · simp [e]

/-- Witness of C11: closing the first subscriber of the sample channel with
two subscribers leaves the second one, at index 1, as it was. -/
theorem close_idempotent_witness :
    (exFaulty.pb.closeSub 0).1.subs[1]? = exFaulty.pb.subs[1]? :=
  (close_idempotent exClosed exFaulty.pb 0).2.2.2.2.2.2.2.2.2.2.1 1 (by decide)

/-! ## C12: roles of one connection -/

/-- C12 fails on the code: on a fresh handler a publish request for "live"
and then a play request for "live" are both accepted (OnPlay tests only
`h.sub`, not `h.pub`), after which the connection holds the publisher role
and the subscriber role at once, and OnClose makes both close calls. The
opposite order is rejected: after a play request OnPublish fails with "Cannot
publish to this stream". -/
theorem double_role_accepted :
    (exHandler.OnPublish "live").2 = none ∧
    ((exHandler.OnPublish "live").1.OnPlay "live" okCallback).2 = none ∧
    exBothRoles.pub.isSome = true ∧ exBothRoles.sub.isSome = true ∧
    exBothRoles.OnClose.2 = [CloseCall.pubClose, CloseCall.subClose] ∧
    (exViewer.OnPlay "live" okCallback).2 = none ∧
    ((exViewer.OnPlay "live" okCallback).1.OnPublish "other").2 =
      some "Cannot publish to this stream" := by
  decide

/-! ## C13: deliveries of a Video publish -/

theorem videoBody_primed (sh kf : Option FlvTag) (u : FlvTag) (i : Nat) (s : Sub)
    (hi : s.initialized = true) :
    (videoBody sh kf u i s).2.map (fun d => d.unit) = [cloneView u] ∧
      (s.closed = false →
        (videoBody sh kf u i s).2.filterMap (fun d => d.called) =
          [(s.onEvent (cloneView u)).flv]) := by
  refine ⟨by simp [videoBody, hi, deliver], fun hc => ?_⟩
  have k := onEvent_open_called s (cloneView u) hc
  simp [videoBody, hi, deliver, k]

theorem videoBody_priming (sh kf : Option FlvTag) (u : FlvTag) (i : Nat) (s : Sub)
    (hi : s.initialized = false) :
    (videoBody sh kf u i s).1.initialized = true ∧
      (videoBody sh kf u i s).2.map (fun d => d.unit) =
        (sh.toList ++ kf.toList).map cloneView ∧
      (s.closed = false →
        (videoBody sh kf u i s).2.filterMap (fun d => d.called) =
          handedAll s ((sh.toList ++ kf.toList).map cloneView)) := by
  cases sh with
  | none =>
    cases kf with
    | none => simp [videoBody, hi, handedAll]
    | some k =>
      refine ⟨by simp [videoBody, hi], by simp [videoBody, hi, deliver], fun hc => ?_⟩
      have k1 := onEvent_open_called s (cloneView k) hc
      simp [videoBody, hi, deliver, handedAll, k1]
  | some h =>
    cases kf with
    | none =>
      refine ⟨by simp [videoBody, hi], by simp [videoBody, hi, deliver], fun hc => ?_⟩
      have k1 := onEvent_open_called s (cloneView h) hc
      simp [videoBody, hi, deliver, handedAll, k1]
    | some k =>
      refine ⟨by simp [videoBody, hi], by simp [videoBody, hi, deliver], fun hc => ?_⟩
      have k1 := onEvent_open_called s (cloneView h) hc
      have hc1 : (s.onEvent (cloneView h)).sub.closed = false := by
        rw [(onEvent_flags s (cloneView h)).1, hc]
      have k2 := onEvent_open_called (s.onEvent (cloneView h)).sub (cloneView k) hc1
      simp [videoBody, hi, deliver, handedAll, k1, k2]

/-- C13: for a Video unit `u` Publish first updates the caches (the
sequence-header cache becomes `u` when its packet type is SequenceHeader, the
keyframe cache becomes `u` when its frame type is Key). Then every
initialized subscriber is passed exactly one copy of `u` (and, when open, has
its callback invoked once with it), and every uninitialized subscriber is
passed one copy of each cache that is present, header first (its callback,
when open, is invoked with exactly these), and is marked initialized. So a
`u` that is both a sequence header and a key frame is passed twice to every
uninitialized subscriber, and a subscriber primed while both caches are
absent is passed nothing and becomes initialized. -/
theorem video_deliveries (p : Pub) (u : FlvTag) (d : VideoData) (hu : u.Data = .video d) :
    (p.Publish u).pub.avcSeqHeader =
      (if d.AVCPacketType = AVCPacketType.SequenceHeader then some u else p.avcSeqHeader) ∧
    (p.Publish u).pub.lastKeyFrame =
      (if d.FrameType = FrameType.KeyFrame then some u else p.lastKeyFrame) ∧
    (∀ i s, p.pb.subs[i]? = some s → s.initialized = true →
      unitsTo i (p.Publish u).log = [cloneView u] ∧
      (s.closed = false → calledOn i (p.Publish u).log = [(s.onEvent (cloneView u)).flv])) ∧
    (∀ i s, p.pb.subs[i]? = some s → s.initialized = false →
      unitsTo i (p.Publish u).log =
        ((p.Publish u).pub.avcSeqHeader.toList ++ (p.Publish u).pub.lastKeyFrame.toList).map
          cloneView ∧
      (s.closed = false → calledOn i (p.Publish u).log =
        handedAll s
          (((p.Publish u).pub.avcSeqHeader.toList ++ (p.Publish u).pub.lastKeyFrame.toList).map
            cloneView)) ∧
      (∃ s1, (p.Publish u).pub.pb.subs[i]? = some s1 ∧ s1.initialized = true) ∧
      (d.AVCPacketType = AVCPacketType.SequenceHeader → d.FrameType = FrameType.KeyFrame →
        unitsTo i (p.Publish u).log = [cloneView u, cloneView u]) ∧
      (p.avcSeqHeader = none → p.lastKeyFrame = none →
        d.AVCPacketType ≠ AVCPacketType.SequenceHeader → d.FrameType ≠ FrameType.KeyFrame →
        unitsTo i (p.Publish u).log = [])) := by
  have c := Publish_video_caches p u d hu
  refine ⟨c.1, c.2, ?_, ?_⟩
  · intro i s hs hi
    have a := Publish_video_at p u d hu i s hs
    have b := videoBody_primed (p.Publish u).pub.avcSeqHeader (p.Publish u).pub.lastKeyFrame
      u i s hi
    refine ⟨by rw [unitsTo, a.2]; exact b.1, fun hc => ?_⟩
    rw [calledOn, a.2]
    exact b.2 hc
  · intro i s hs hi
    have a := Publish_video_at p u d hu i s hs
    have b := videoBody_priming (p.Publish u).pub.avcSeqHeader (p.Publish u).pub.lastKeyFrame
      u i s hi
    have hunits : unitsTo i (p.Publish u).log =
        ((p.Publish u).pub.avcSeqHeader.toList ++ (p.Publish u).pub.lastKeyFrame.toList).map
          cloneView := by
      rw [unitsTo, a.2]
      exact b.2.1
    refine ⟨hunits, fun hc => ?_, ⟨_, a.1, b.1⟩, ?_, ?_⟩
    · rw [calledOn, a.2]
      exact b.2.2 hc
    · intro h1 h2
      rw [hunits, c.1, c.2, if_pos h1, if_pos h2]
      rfl
    · intro n1 n2 h1 h2
      rw [hunits, c.1, c.2, if_neg h1, if_neg h2, n1, n2]
      rfl

/-- Witness of C13: on the sample channel without cached video, a unit that
is both a sequence header and a key frame is passed twice to the
uninitialized subscriber. -/
theorem video_deliveries_witness :
    unitsTo 0 (exFresh.Publish exBoth).log = [cloneView exBoth, cloneView exBoth] :=
  ((video_deliveries exFresh exBoth _ rfl).2.2.2 0
    { initialized := false, closed := false, lastTimestamp := 0, eventCallback := okCallback }
    rfl rfl).2.2.2.1 rfl rfl

end VideoStreamingService
